import Mathlib

/-!
Shallow embedding of `Source/Scene/Polygon.js` (Cesium `Polygon` primitive):
the polygon-hierarchy flattening algorithm (`configureFromPolygonHierarchy`),
the position setter (`setPositions`), the dirty-tracking rebuild logic
(`update`), and destruction (`destroy` / `isDestroyed`).

Modelling choices:
- 3-D points are an arbitrary type `α` (their coordinates are never inspected
  by this file's code).
- JS numbers that the code compares with `!==` or `<` are modelled as `ℚ`
  (the code never does float-specific arithmetic on them).
- A JS value that may be `undefined` is `Option _`; `none` is `undefined`.
- JS object reference identity (used by `!==` on the ellipsoid) is modelled by
  giving each `Ellipsoid` a reference id: two distinct JS objects have
  distinct `id`s even when their parameters coincide.
- The external collaborator `PolygonPipeline.eliminateHoles` is an arbitrary
  function parameter `eliminateHoles`.
- The `Primitive` renderable handle is an opaque id (`Nat`) drawn from a
  fresh-handle counter carried in the state.
- A JS method that can `throw` is modelled returning the (possibly) mutated
  state paired with `Option DevError`, or `Except DevError _` when the source
  throws before any mutation; `DeveloperError` messages become constructors.
-/

/-- The `DeveloperError` exceptions thrown by `Polygon.js`, one constructor per
distinct error message, plus the use-after-destroy error installed by
`destroyObject`. -/
inductive DevError where
  | atLeastThreePositions
  | ellipsoidRequired
  | materialRequired
  | granularityOutOfRange
  | useAfterDestroy
deriving DecidableEq, Repr

/-- An ellipsoid object: `id` models JS reference identity (distinct objects
have distinct ids), `radii` its defining parameters. -/
structure Ellipsoid where
  id : Nat
  radii : ℚ × ℚ × ℚ
deriving DecidableEq, Repr

/-- The nested polygon-hierarchy input of `configureFromPolygonHierarchy`:
`{ positions : [...], holes : [...] }`.  A JS node with `holes` absent behaves
identically to `holes : []` (the source computes
`numChildren = outerNode.holes ? outerNode.holes.length : 0`), so both are
modelled as the empty list. -/
inductive PolygonHierarchy (α : Type) where
  | node (positions : List α) (holes : List (PolygonHierarchy α))
deriving Repr

namespace PolygonHierarchy

/-- The `positions` field of a hierarchy node. -/
def positions : PolygonHierarchy α → List α
  | .node p _ => p

/-- The `holes` field of a hierarchy node. -/
def holes : PolygonHierarchy α → List (PolygonHierarchy α)
  | .node _ h => h

end PolygonHierarchy

mutual

/-- Number of nodes of a hierarchy (termination measure for the flattening
queue loop). -/
def hierSize : PolygonHierarchy α → Nat
  | .node _ holes => 1 + hierSizeList holes

/-- Total node count of a list of hierarchies. -/
def hierSizeList : List (PolygonHierarchy α) → Nat
  | [] => 0
  | h :: t => hierSize h + hierSizeList t

end

/-- The `while (queue.length !== 0)` loop of
`Polygon.prototype.configureFromPolygonHierarchy`, parameterised by the
external collaborator `PolygonPipeline.eliminateHoles`.  The argument list is
the current FIFO queue contents; the result is the `polygons` array in push
(dequeue) order, or the thrown `DeveloperError`. -/
def flattenQueue (eliminateHoles : List α → List (List α) → List α) :
    List (PolygonHierarchy α) → Except DevError (List (List α))
  | [] => .ok []
  | .node outerRing holes :: rest =>
    if outerRing.length < 3 then
      .error .atLeastThreePositions
    else if holes.length = 0 then
      (flattenQueue eliminateHoles rest).map fun ps => outerRing :: ps
    else
      (flattenQueue eliminateHoles
          (rest ++ holes.flatMap PolygonHierarchy.holes)).map
        fun ps => eliminateHoles outerRing (holes.map PolygonHierarchy.positions) :: ps
termination_by q => hierSizeList q
decreasing_by
  · simp [hierSizeList, hierSize]
  · have happ : ∀ (a b : List (PolygonHierarchy α)),
        hierSizeList (a ++ b) = hierSizeList a + hierSizeList b := by
      intro a b
      induction a with
      | nil => simp [hierSizeList]
      | cons x t ih => simp [hierSizeList, ih]; ring
    have key : ∀ (l : List (PolygonHierarchy α)),
        hierSizeList (l.flatMap PolygonHierarchy.holes) ≤ hierSizeList l := by
      intro l
      induction l with
      | nil => simp [hierSizeList]
      | cons x t ih =>
          have hx : hierSizeList x.holes + 1 ≤ hierSize x := by
            cases x with
            | node p hs =>
                simp [hierSize, PolygonHierarchy.holes]
                omega
          simp only [List.flatMap_cons, happ, hierSizeList]
          omega
    have := key holes
    simp [hierSizeList, hierSize, happ]
    omega

/-- The configuration record passed to `new PolygonGeometry({...})` when the
controller rebuilds: one geometry build request. -/
structure GeometryRequest (α : Type) where
  positions : Option (List α)
  polygonHierarchy : Option (List (List α))
  height : ℚ
  stRotation : Option ℚ
  ellipsoid : Option Ellipsoid
  granularity : ℚ
deriving DecidableEq, Repr

/-- Observable effects of one `update` call: the geometry build requests
issued (in order), the number of material assignments
(`this._primitive.appearance.material = this.material`), and the ids of the
renderable handles disposed (`this._primitive.destroy()`). -/
structure TickEvents (α : Type) where
  builds : List (GeometryRequest α)
  setMaterialCalls : Nat
  disposed : List Nat
deriving DecidableEq, Repr

/-- The state of one `Polygon` instance: the public fields set in the
constructor, the `_`-prefixed shadow snapshot used by the dirty check, the
stored boundary data, and the held renderable.  `nextHandle` supplies fresh
renderable-handle ids; `destroyed` is the flag `destroyObject` sets. -/
structure Polygon (α : Type) where
  ellipsoid : Option Ellipsoid
  granularity : ℚ
  height : ℚ
  textureRotationAngle : Option ℚ
  show_ : Bool
  material : Option Nat
  _positions : Option (List α)
  _polygonHierarchy : Option (List (List α))
  _createPrimitive : Bool
  _ellipsoid : Option Ellipsoid
  _granularity : Option ℚ
  _height : Option ℚ
  _textureRotationAngle : Option ℚ
  _primitive : Option Nat
  nextHandle : Nat
  destroyed : Bool
deriving DecidableEq, Repr

namespace Polygon

/-- `Polygon.prototype.getPositions`. -/
def getPositions (s : Polygon α) : Option (List α) :=
  s._positions

/-- `Polygon.prototype.setPositions`.  Returns the state as left by the call
together with the thrown error, if any (the source throws before mutating
anything). -/
def setPositions (s : Polygon α) (positions : Option (List α)) :
    Polygon α × Option DevError :=
  match positions with
  | some l =>
      if l.length < 3 then
        (s, some .atLeastThreePositions)
      else
        ({ s with _positions := some l, _polygonHierarchy := none,
                  _createPrimitive := true }, none)
  | none =>
      ({ s with _positions := none, _polygonHierarchy := none,
                _createPrimitive := true }, none)

/-- `Polygon.prototype.configureFromPolygonHierarchy`.  The queue loop builds
the local `polygons` array; the three `this.` mutations happen only after the
loop completes, so a thrown error leaves the state untouched. -/
def configureFromPolygonHierarchy
    (eliminateHoles : List α → List (List α) → List α)
    (s : Polygon α) (hierarchy : PolygonHierarchy α) :
    Polygon α × Option DevError :=
  match flattenQueue eliminateHoles [hierarchy] with
  | .error e => (s, some e)
  | .ok polygons =>
      ({ s with _positions := none, _polygonHierarchy := some polygons,
                _createPrimitive := true }, none)

/-- `Polygon.prototype.update`.  Errors are thrown before any mutation; on a
normal return the new state is paired with the tick's observable events. -/
def update (s : Polygon α) : Except DevError (Polygon α × TickEvents α) :=
  if s.ellipsoid.isNone then .error .ellipsoidRequired
  else if s.material.isNone then .error .materialRequired
  else if s.granularity < 0 then .error .granularityOutOfRange
  else if s.show_ = false then .ok (s, ⟨[], 0, []⟩)
  else if s._createPrimitive = false ∧ s._primitive.isNone then .ok (s, ⟨[], 0, []⟩)
  else if s._createPrimitive = true ∨ s._ellipsoid ≠ s.ellipsoid
      ∨ s._granularity ≠ some s.granularity ∨ s._height ≠ some s.height
      ∨ s._textureRotationAngle ≠ s.textureRotationAngle then
    let disposed := s._primitive.toList
    let s1 : Polygon α :=
      { s with _createPrimitive := false, _ellipsoid := s.ellipsoid,
               _granularity := some s.granularity, _height := some s.height,
               _textureRotationAngle := s.textureRotationAngle,
               _primitive := none }
    if s._positions.isNone ∧ s._polygonHierarchy.isNone then
      .ok (s1, ⟨[], 0, disposed⟩)
    else
      let req : GeometryRequest α :=
        ⟨s._positions, s._polygonHierarchy, s.height, s.textureRotationAngle,
         s.ellipsoid, s.granularity⟩
      .ok ({ s1 with _primitive := some s.nextHandle,
                     nextHandle := s.nextHandle + 1 },
           ⟨[req], 1, disposed⟩)
  else
    .ok (s, ⟨[], 1, []⟩)

/-- `Polygon.prototype.destroy`:
`this._primitive = this._primitive && this._primitive.destroy()` then
`destroyObject(this)`.  Modelled from the spec: `destroyObject`
(`Source/Core/destroyObject.js`, not under `src/`) marks the object destroyed
so that every later contract call other than `isDestroyed` throws.  Returns
the new state and the list of disposed handle ids. -/
def destroy (s : Polygon α) : Polygon α × List Nat :=
  ({ s with _primitive := none, destroyed := true }, s._primitive.toList)

/-- `Polygon.prototype.isDestroyed`.  The source returns `false`; modelled
from the spec: `destroyObject` replaces it with one returning `true` after
destruction, so it reports the `destroyed` flag. -/
def isDestroyed (s : Polygon α) : Bool :=
  s.destroyed

/-- Modelled from the spec: after `destroyObject`, calling `getPositions`
throws a use-after-destroy `DeveloperError`. -/
def getPositionsChecked (s : Polygon α) : Except DevError (Option (List α)) :=
  if s.destroyed then .error .useAfterDestroy else .ok (getPositions s)

/-- Modelled from the spec: after `destroyObject`, calling `setPositions`
throws a use-after-destroy `DeveloperError`. -/
def setPositionsChecked (s : Polygon α) (positions : Option (List α)) :
    Polygon α × Option DevError :=
  if s.destroyed then (s, some .useAfterDestroy) else setPositions s positions

/-- Modelled from the spec: after `destroyObject`, calling
`configureFromPolygonHierarchy` throws a use-after-destroy `DeveloperError`. -/
def configureFromPolygonHierarchyChecked
    (eliminateHoles : List α → List (List α) → List α)
    (s : Polygon α) (hierarchy : PolygonHierarchy α) :
    Polygon α × Option DevError :=
  if s.destroyed then (s, some .useAfterDestroy)
  else configureFromPolygonHierarchy eliminateHoles s hierarchy

/-- Modelled from the spec: after `destroyObject`, calling `update` throws a
use-after-destroy `DeveloperError`. -/
def updateChecked (s : Polygon α) : Except DevError (Polygon α × TickEvents α) :=
  if s.destroyed then .error .useAfterDestroy else update s

/-- Modelled from the spec: after `destroyObject`, calling `destroy` again
throws a use-after-destroy `DeveloperError`. -/
def destroyChecked (s : Polygon α) : Except DevError (Polygon α × List Nat) :=
  if s.destroyed then .error .useAfterDestroy else .ok (destroy s)

end Polygon

/-- A hierarchy node is reported by the traversal when its own outer ring is
short, or when the outer ring of some node the queue later dequeues (a nested
island, reached as a hole of a hole, recursively) is short. -/
inductive HasShortOuter : PolygonHierarchy α → Prop where
  | here (positions : List α) (holes : List (PolygonHierarchy α)) :
      positions.length < 3 → HasShortOuter (.node positions holes)
  | nested (positions : List α) (holes : List (PolygonHierarchy α))
      (hole sub : PolygonHierarchy α) : hole ∈ holes → sub ∈ hole.holes →
      HasShortOuter sub → HasShortOuter (.node positions holes)

/-- A concrete stand-in for the external `PolygonPipeline.eliminateHoles`
collaborator, used to instantiate witnesses. -/
def sampleEliminateHoles : List Nat → List (List Nat) → List Nat :=
  fun outerRing holes => outerRing ++ holes.flatMap id

/-- A freshly constructed polygon: the constructor defaults (WGS84 ellipsoid,
positive granularity, default colour material, shown, nothing configured). -/
def samplePolygon : Polygon Nat :=
  { ellipsoid := some ⟨0, (1, 1, 1)⟩, granularity := 1, height := 0,
    textureRotationAngle := none, show_ := true, material := some 0,
    _positions := none, _polygonHierarchy := none, _createPrimitive := false,
    _ellipsoid := none, _granularity := none, _height := none,
    _textureRotationAngle := none, _primitive := none, nextHandle := 0,
    destroyed := false }

/-- `samplePolygon` after a valid `setPositions`, awaiting its first tick. -/
def sampleConfigured : Polygon Nat :=
  { samplePolygon with _positions := some [100, 101, 102],
                       _createPrimitive := true }

/-- A polygon that has already been built once: shadow snapshot equals the
current fields, a renderable handle is held, nothing is pending. -/
def sampleStable : Polygon Nat :=
  { samplePolygon with _positions := some [100, 101, 102],
                       _ellipsoid := some ⟨0, (1, 1, 1)⟩, _granularity := some 1,
                       _height := some 0, _textureRotationAngle := none,
                       _primitive := some 0, nextHandle := 1 }

/- ------------------------------------------------------------------ -/
/- Helper lemmas                                                       -/
/- ------------------------------------------------------------------ -/

theorem hierSizeList_append (a b : List (PolygonHierarchy α)) :
    hierSizeList (a ++ b) = hierSizeList a + hierSizeList b := by
  induction a with
  | nil => simp [hierSizeList]
  | cons h t ih => simp [hierSizeList, ih]; ring

theorem hierSizeList_flatMap_holes_le (l : List (PolygonHierarchy α)) :
    hierSizeList (l.flatMap PolygonHierarchy.holes) ≤ hierSizeList l := by
  induction l with
  | nil => simp [hierSizeList]
  | cons x t ih =>
      have hx : hierSizeList x.holes + 1 ≤ hierSize x := by
        cases x with
        | node p hs =>
            simp [hierSize, PolygonHierarchy.holes]
            omega
      simp only [List.flatMap_cons, hierSizeList_append, hierSizeList]
      omega

theorem hierSize_pos (n : PolygonHierarchy α) : 1 ≤ hierSize n := by
  cases n with
  | node p holes => simp [hierSize]

theorem hierSizeList_mem_le (n : PolygonHierarchy α) (l : List (PolygonHierarchy α))
    (h : n ∈ l) : hierSize n ≤ hierSizeList l := by
  induction l with
  | nil => simp at h
  | cons a t ih =>
      rcases List.mem_cons.mp h with rfl | h
      · simp [hierSizeList]
      · have := ih h
        simp [hierSizeList]
        omega

theorem flattenQueue_error_of_short
    (eliminateHoles : List α → List (List α) → List α) :
    ∀ (N : Nat) (q : List (PolygonHierarchy α)), hierSizeList q ≤ N →
      (∃ n ∈ q, HasShortOuter n) →
      flattenQueue eliminateHoles q = .error .atLeastThreePositions := by
  intro N
  induction N with
  | zero =>
      intro q hq hex
      obtain ⟨n, hn, _⟩ := hex
      have h1 := hierSize_pos n
      have h2 := hierSizeList_mem_le n q hn
      omega
  | succ N ih =>
      intro q hq hex
      match q with
      | [] => simp at hex
      | .node p holes :: rest =>
          by_cases hp : p.length < 3
          · simp [flattenQueue, hp]
          · by_cases hh : holes.length = 0
            · have hrest : ∃ n ∈ rest, HasShortOuter n := by
                obtain ⟨n, hn, hshort⟩ := hex
                rcases List.mem_cons.mp hn with rfl | hn
                · cases hshort with
                  | here _ _ h3 => exact absurd h3 hp
                  | nested _ _ hole sub hhole hsub h3 =>
                      rw [List.length_eq_zero] at hh
                      subst hh
                      simp at hhole
                · exact ⟨n, hn, hshort⟩
              have hsz : hierSizeList rest ≤ N := by
                simp [hierSizeList, hierSize] at hq
                omega
              rw [flattenQueue, if_neg hp, if_pos hh, ih rest hsz hrest]
              simp [Except.map]
            · have hnext : ∃ n ∈ rest ++ holes.flatMap PolygonHierarchy.holes,
                  HasShortOuter n := by
                obtain ⟨n, hn, hshort⟩ := hex
                rcases List.mem_cons.mp hn with rfl | hn
                · cases hshort with
                  | here _ _ h3 => exact absurd h3 hp
                  | nested _ _ hole sub hhole hsub h3 =>
                      refine ⟨sub, ?_, h3⟩
                      refine List.mem_append_right _ ?_
                      exact List.mem_flatMap.mpr ⟨hole, hhole, hsub⟩
                · exact ⟨n, List.mem_append_left _ hn, hshort⟩
              have hsz : hierSizeList (rest ++ holes.flatMap PolygonHierarchy.holes) ≤ N := by
                have := hierSizeList_flatMap_holes_le holes
                simp [hierSizeList, hierSize, hierSizeList_append] at hq ⊢
                omega
              rw [flattenQueue, if_neg hp, if_neg hh, ih _ hsz hnext]
              simp [Except.map]

namespace Polygon

theorem update_eq_clean (s : Polygon α) (e : Ellipsoid) (m h : Nat)
    (he : s.ellipsoid = some e) (hm : s.material = some m)
    (hg0 : ¬ s.granularity < 0) (hs : s.show_ = true)
    (hp : s._primitive = some h)
    (hcp : s._createPrimitive = false) (hse : s._ellipsoid = s.ellipsoid)
    (hsg : s._granularity = some s.granularity) (hsh : s._height = some s.height)
    (hst : s._textureRotationAngle = s.textureRotationAngle) :
    update s = .ok (s, ⟨[], 1, []⟩) := by
  simp [update, he, hm, hg0, hs, hp, hcp, hse, hsg, hsh, hst]

theorem update_eq_build (s : Polygon α) (e : Ellipsoid) (m : Nat)
    (he : s.ellipsoid = some e) (hm : s.material = some m)
    (hg0 : ¬ s.granularity < 0) (hs : s.show_ = true)
    (hdirty : s._createPrimitive = true ∨ s._ellipsoid ≠ s.ellipsoid
      ∨ s._granularity ≠ some s.granularity ∨ s._height ≠ some s.height
      ∨ s._textureRotationAngle ≠ s.textureRotationAngle)
    (hskip : s._createPrimitive = true ∨ s._primitive.isSome)
    (hpos : s._positions.isSome ∨ s._polygonHierarchy.isSome) :
    update s = .ok
      ({ s with _createPrimitive := false, _ellipsoid := s.ellipsoid,
                _granularity := some s.granularity, _height := some s.height,
                _textureRotationAngle := s.textureRotationAngle,
                _primitive := some s.nextHandle, nextHandle := s.nextHandle + 1 },
       ⟨[⟨s._positions, s._polygonHierarchy, s.height, s.textureRotationAngle,
          s.ellipsoid, s.granularity⟩], 1, s._primitive.toList⟩) := by
  have hpos' : (∃ x, s._positions = some x) ∨ (∃ x, s._polygonHierarchy = some x) := by
    rcases hpos with h | h
    · exact .inl (Option.isSome_iff_exists.mp h)
    · exact .inr (Option.isSome_iff_exists.mp h)
  rcases hskip with hcp | hprim
  · rcases hpos' with ⟨px, hx⟩ | ⟨ph, hx⟩ <;>
      simp [update, he, hm, hg0, hs, hcp, hx]
  · obtain ⟨y, hy⟩ := Option.isSome_iff_exists.mp hprim
    rcases hdirty with hd | hd | hd | hd | hd
    · rcases hpos' with ⟨px, hx⟩ | ⟨ph, hx⟩ <;>
        simp [update, he, hm, hg0, hs, hd, hy, hx]
    · rw [he] at hd
      rcases hpos' with ⟨px, hx⟩ | ⟨ph, hx⟩ <;>
        simp [update, he, hm, hg0, hs, hd, hy, hx]
    · rcases hpos' with ⟨px, hx⟩ | ⟨ph, hx⟩ <;>
        simp [update, he, hm, hg0, hs, hd, hy, hx]
    · rcases hpos' with ⟨px, hx⟩ | ⟨ph, hx⟩ <;>
        simp [update, he, hm, hg0, hs, hd, hy, hx]
    · rcases hpos' with ⟨px, hx⟩ | ⟨ph, hx⟩ <;>
        simp [update, he, hm, hg0, hs, hd, hy, hx]

end Polygon

/- ------------------------------------------------------------------ -/
/- Claims                                                              -/
/- ------------------------------------------------------------------ -/

/-- C1 (amended): the traversal only validates the rings of dequeued nodes —
the root and, recursively, nested islands (holes of holes).  For every
hierarchy in which one of those outer rings has fewer than 3 points,
`configureFromPolygonHierarchy` raises the at-least-three-positions
`DeveloperError` and leaves the state untouched.  Rings of direct hole nodes
are passed to `eliminateHoles` without validation. -/
theorem setHierarchy_short_outer_raises
    (eliminateHoles : List α → List (List α) → List α) (s : Polygon α)
    (root : PolygonHierarchy α) (h : HasShortOuter root) :
    Polygon.configureFromPolygonHierarchy eliminateHoles s root
      = (s, some .atLeastThreePositions) := by
  have hq : ∃ n ∈ [root], HasShortOuter n := ⟨root, by simp, h⟩
  have := flattenQueue_error_of_short eliminateHoles (hierSizeList [root]) [root]
    le_rfl hq
  simp [Polygon.configureFromPolygonHierarchy, this]

/-- C1 witness: a hierarchy whose root ring is empty is rejected with the
configuration error, the state left untouched. -/
theorem setHierarchy_short_outer_raises_witness :
    Polygon.configureFromPolygonHierarchy sampleEliminateHoles samplePolygon
      (.node ([] : List Nat) []) = (samplePolygon, some .atLeastThreePositions) :=
  setHierarchy_short_outer_raises sampleEliminateHoles samplePolygon _
    (HasShortOuter.here [] [] (by decide))

/-- C1 counterexample: the claim as stated is false — a hierarchy whose hole
ring has only 2 points (fewer than 3, at depth 1) is accepted without error,
because hole rings are collected for `eliminateHoles` without being length
checked; only dequeued nodes are checked. -/
theorem setHierarchy_short_hole_ring_counterexample :
    (Polygon.configureFromPolygonHierarchy sampleEliminateHoles samplePolygon
      (.node [0, 1, 2] [.node [3, 4] []])).2 = none := by
  simp [Polygon.configureFromPolygonHierarchy, flattenQueue,
    PolygonHierarchy.holes, PolygonHierarchy.positions, Except.map,
    sampleEliminateHoles]

/-- C2 (code bug at granularity = 0): `update` validates the ellipsoid, the
material and the granularity before the visibility check, but the granularity
test is `this.granularity < 0.0`, so granularity = 0 passes — contradicting
the code's own error message "must be greater than zero".  Concretely:
granularity 0 is accepted (even with `show` false, where the claim's
pre-visibility validation would still have to fire), while an undefined
ellipsoid, an undefined material and a negative granularity all throw before
the visibility check. -/
theorem update_granularity_zero_accepted :
    (Polygon.update { samplePolygon with granularity := 0 }).isOk = true ∧
    (Polygon.update { samplePolygon with granularity := 0, show_ := false }).isOk = true ∧
    (Polygon.update { samplePolygon with ellipsoid := none, show_ := false }).isOk = false ∧
    (Polygon.update { samplePolygon with material := none, show_ := false }).isOk = false ∧
    (Polygon.update { samplePolygon with granularity := -1, show_ := false }).isOk = false := by
  decide

/-- C3 counterexample: the claim as stated is false — supplying an empty list
is not accepted as the "cleared" state: `setPositions([])` throws (an empty
array is defined and has length 0 < 3).  Only the absent (undefined) points
value clears. -/
theorem setPositions_empty_list_counterexample :
    (Polygon.setPositions samplePolygon (some ([] : List Nat))).2
      = some DevError.atLeastThreePositions := by
  decide

/-- C3 (amended): `setPositions` raises the configuration error iff a points
list is supplied (defined) and has fewer than 3 entries — the empty list
included; only the absent (undefined) points value is the valid "cleared"
state. -/
theorem setPositions_error_iff (s : Polygon α) (p : Option (List α)) :
    (Polygon.setPositions s p).2 = some DevError.atLeastThreePositions
      ↔ ∃ l, p = some l ∧ l.length < 3 := by
  cases p with
  | none => simp [Polygon.setPositions]
  | some l =>
      by_cases h : l.length < 3 <;> simp [Polygon.setPositions, h]

/-- C4: flattening is the breadth-first queue algorithm.  For
`{outer:[A,B,C,D], holes:[{outer:[E,F,G]}]}` the output is the single loop
`eliminateHoles [A,B,C,D] [[E,F,G]]`; for a two-level nesting (outer ring R,
hole H, island I inside H) the output is exactly
`[eliminateHoles R [H], I]` in that order, with I emitted unchanged. -/
theorem flatten_scenarios (eliminateHoles : List α → List (List α) → List α)
    (A B C D E F G : α) (R H I : List α)
    (hR : ¬ R.length < 3) (hI : ¬ I.length < 3) :
    flattenQueue eliminateHoles [.node [A, B, C, D] [.node [E, F, G] []]]
      = .ok [eliminateHoles [A, B, C, D] [[E, F, G]]] ∧
    flattenQueue eliminateHoles [.node R [.node H [.node I []]]]
      = .ok [eliminateHoles R [H], I] := by
  constructor
  · simp [flattenQueue, PolygonHierarchy.holes, PolygonHierarchy.positions,
      Except.map]
  · simp [flattenQueue, PolygonHierarchy.holes, PolygonHierarchy.positions,
      Except.map, hR, hI]

/-- C4 witness: both scenarios at concrete rings (the island's parent hole
H = [3,4] shows the traversal does not depend on hole-ring length). -/
theorem flatten_scenarios_witness :
    flattenQueue sampleEliminateHoles [.node [0, 1, 2, 3] [.node [4, 5, 6] []]]
      = .ok [sampleEliminateHoles [0, 1, 2, 3] [[4, 5, 6]]] ∧
    flattenQueue sampleEliminateHoles [.node [0, 1, 2] [.node [3, 4] [.node [6, 7, 8] []]]]
      = .ok [sampleEliminateHoles [0, 1, 2] [[3, 4]], [6, 7, 8]] :=
  flatten_scenarios sampleEliminateHoles 0 1 2 3 4 5 6 [0, 1, 2] [3, 4] [6, 7, 8]
    (by decide) (by decide)

/-- C5: with a boundary configured and the polygon shown, tick is idempotent:
the first `update` performs at most one geometry build; a second `update`
with no intervening configuration change leaves the state (hence the held
renderable handle) exactly as it was, performs no build, no disposal, and
still assigns the material once; changing only the material between ticks
likewise performs zero builds but one material assignment. -/
theorem tick_idempotent_and_material_swap (s : Polygon α) (e : Ellipsoid)
    (m m' : Nat)
    (he : s.ellipsoid = some e) (hm : s.material = some m)
    (hg0 : ¬ s.granularity < 0) (hs : s.show_ = true)
    (hpos : s._positions.isSome ∨ s._polygonHierarchy.isSome)
    (hskip : s._createPrimitive = true ∨ s._primitive.isSome) :
    ∃ s1 ev1, Polygon.update s = .ok (s1, ev1) ∧ ev1.builds.length ≤ 1 ∧
      ev1.setMaterialCalls = 1 ∧
      Polygon.update s1 = .ok (s1, ⟨[], 1, []⟩) ∧
      Polygon.update { s1 with material := some m' }
        = .ok ({ s1 with material := some m' }, ⟨[], 1, []⟩) := by
  by_cases hdirty : s._createPrimitive = true ∨ s._ellipsoid ≠ s.ellipsoid
      ∨ s._granularity ≠ some s.granularity ∨ s._height ≠ some s.height
      ∨ s._textureRotationAngle ≠ s.textureRotationAngle
  · have hb := Polygon.update_eq_build s e m he hm hg0 hs hdirty hskip hpos
    refine ⟨_, _, hb, by simp, by simp, ?_, ?_⟩
    · apply Polygon.update_eq_clean _ e m s.nextHandle <;> simp [he, hm, hg0, hs]
    · apply Polygon.update_eq_clean _ e m' s.nextHandle <;> simp [he, hm, hg0, hs]
  · rw [not_or, not_or, not_or, not_or] at hdirty
    obtain ⟨h1, h2, h3, h4, h5⟩ := hdirty
    simp only [ne_eq, not_not] at h2 h3 h4 h5
    have hcp : s._createPrimitive = false := by
      cases hb : s._createPrimitive
      · rfl
      · exact absurd hb h1
    have hprim : s._primitive.isSome := by
      rcases hskip with h | h
      · exact absurd h h1
      · exact h
    obtain ⟨y, hy⟩ := Option.isSome_iff_exists.mp hprim
    have hclean := Polygon.update_eq_clean s e m y he hm hg0 hs hy hcp h2 h3 h4 h5
    refine ⟨s, _, hclean, by simp, by simp, hclean, ?_⟩
    apply Polygon.update_eq_clean _ e m' y <;> simp [he, hm, hg0, hs, hy, hcp, h2, h3, h4, h5]

/-- C5 witness: a configured polygon awaiting its first tick. -/
theorem tick_idempotent_and_material_swap_witness :
    ∃ s1 ev1, Polygon.update sampleConfigured = .ok (s1, ev1) ∧
      ev1.builds.length ≤ 1 ∧ ev1.setMaterialCalls = 1 ∧
      Polygon.update s1 = .ok (s1, ⟨[], 1, []⟩) ∧
      Polygon.update { s1 with material := some 5 }
        = .ok ({ s1 with material := some 5 }, ⟨[], 1, []⟩) :=
  tick_idempotent_and_material_swap sampleConfigured ⟨0, (1, 1, 1)⟩ 0 5
    rfl rfl (by decide) rfl (Or.inl rfl) (Or.inl rfl)

/-- C6: `setPositions` with a valid list succeeds and sets the dirty flag
unconditionally (for every prior state, equal boundary included); the next
`update` performs exactly one build whose boundary is the supplied list (and
no hierarchy); a second `setPositions` before the tick still yields exactly
one build, reflecting only the latest list. -/
theorem setPositions_dirty_rebuild_latest (s : Polygon α) (e : Ellipsoid)
    (m : Nat) (p q : List α)
    (he : s.ellipsoid = some e) (hm : s.material = some m)
    (hg0 : ¬ s.granularity < 0) (hs : s.show_ = true)
    (hp : ¬ p.length < 3) (hq : ¬ q.length < 3) :
    ∃ s1, Polygon.setPositions s (some p) = (s1, none) ∧
      s1._createPrimitive = true ∧
      (∃ s2 ev, Polygon.update s1 = .ok (s2, ev) ∧
        ev.builds.map GeometryRequest.positions = [some p] ∧
        ev.builds.map GeometryRequest.polygonHierarchy = [none]) ∧
      (∃ s3, Polygon.setPositions s1 (some q) = (s3, none) ∧
        ∃ s4 ev', Polygon.update s3 = .ok (s4, ev') ∧
          ev'.builds.map GeometryRequest.positions = [some q] ∧
          ev'.builds.map GeometryRequest.polygonHierarchy = [none]) := by
  have h1 : Polygon.setPositions s (some p)
      = ({ s with _positions := some p, _polygonHierarchy := none,
                  _createPrimitive := true }, none) := by
    simp [Polygon.setPositions, hp]
  have h2 : Polygon.setPositions
      ({ s with _positions := some p, _polygonHierarchy := none,
                _createPrimitive := true }) (some q)
      = ({ s with _positions := some q, _polygonHierarchy := none,
                  _createPrimitive := true }, none) := by
    simp [Polygon.setPositions, hq]
  refine ⟨_, h1, rfl, ?_, ?_⟩
  · have hb := Polygon.update_eq_build
      ({ s with _positions := some p, _polygonHierarchy := none,
                _createPrimitive := true }) e m
      (by simp [he]) (by simp [hm]) (by simpa using hg0) (by simp [hs])
      (Or.inl rfl) (Or.inl rfl) (Or.inl rfl)
    exact ⟨_, _, hb, by simp, by simp⟩
  · refine ⟨_, h2, ?_⟩
    have hb := Polygon.update_eq_build
      ({ s with _positions := some q, _polygonHierarchy := none,
                _createPrimitive := true }) e m
      (by simp [he]) (by simp [hm]) (by simpa using hg0) (by simp [hs])
      (Or.inl rfl) (Or.inl rfl) (Or.inl rfl)
    exact ⟨_, _, hb, by simp, by simp⟩

/-- C6 witness: two consecutive `setPositions` on the fresh polygon, one tick
each way. -/
theorem setPositions_dirty_rebuild_latest_witness :
    ∃ s1, Polygon.setPositions samplePolygon (some [0, 1, 2]) = (s1, none) ∧
      s1._createPrimitive = true ∧
      (∃ s2 ev, Polygon.update s1 = .ok (s2, ev) ∧
        ev.builds.map GeometryRequest.positions = [some [0, 1, 2]] ∧
        ev.builds.map GeometryRequest.polygonHierarchy = [none]) ∧
      (∃ s3, Polygon.setPositions s1 (some [3, 4, 5]) = (s3, none) ∧
        ∃ s4 ev', Polygon.update s3 = .ok (s4, ev') ∧
          ev'.builds.map GeometryRequest.positions = [some [3, 4, 5]] ∧
          ev'.builds.map GeometryRequest.polygonHierarchy = [none]) :=
  setPositions_dirty_rebuild_latest samplePolygon ⟨0, (1, 1, 1)⟩ 0 [0, 1, 2]
    [3, 4, 5] rfl rfl (by decide) rfl (by decide) (by decide)

/-- C7: the dirty check at tick time compares the ellipsoid by reference
identity and the numeric fields by value: starting from a stable, already
built state, assigning a distinct ellipsoid object with equal parameters (a
different reference id, same radii) still triggers exactly one rebuild, and
changing only the texture-rotation angle also triggers exactly one rebuild. -/
theorem dirty_check_identity_and_rotation (s : Polygon α) (e e' : Ellipsoid)
    (m : Nat) (t' : Option ℚ)
    (he : s.ellipsoid = some e) (hm : s.material = some m)
    (hg0 : ¬ s.granularity < 0) (hs : s.show_ = true)
    (hpos : s._positions.isSome ∨ s._polygonHierarchy.isSome)
    (hprim : s._primitive.isSome) (hcp : s._createPrimitive = false)
    (hse : s._ellipsoid = s.ellipsoid)
    (hsg : s._granularity = some s.granularity) (hsh : s._height = some s.height)
    (hst : s._textureRotationAngle = s.textureRotationAngle)
    (hradii : e'.radii = e.radii) (hid : e'.id ≠ e.id)
    (ht : t' ≠ s.textureRotationAngle) :
    (∃ s2 ev, Polygon.update { s with ellipsoid := some e' } = .ok (s2, ev) ∧
      ev.builds.length = 1) ∧
    (∃ s3 ev', Polygon.update { s with textureRotationAngle := t' } = .ok (s3, ev') ∧
      ev'.builds.length = 1) := by
  constructor
  · have hne : s._ellipsoid ≠ some e' := by
      rw [hse, he]
      intro hcontra
      apply hid
      have : e = e' := by injection hcontra
      rw [this]
    have hb := Polygon.update_eq_build ({ s with ellipsoid := some e' }) e' m
      rfl (by simp [hm]) (by simpa using hg0) (by simp [hs])
      (by right; left; simpa using hne)
      (by right; simpa using hprim) (by simpa using hpos)
    exact ⟨_, _, hb, by simp⟩
  · have hb := Polygon.update_eq_build ({ s with textureRotationAngle := t' }) e m
      (by simp [he]) (by simp [hm]) (by simpa using hg0) (by simp [hs])
      (by
        right; right; right; right
        show ¬ s._textureRotationAngle = t'
        rw [hst]
        exact fun hcontra => ht hcontra.symm)
      (by right; simpa using hprim) (by simpa using hpos)
    exact ⟨_, _, hb, by simp⟩

/-- C7 witness: a stable built polygon, an ellipsoid with the same radii but
a different reference id, and a fresh rotation angle. -/
theorem dirty_check_identity_and_rotation_witness :
    (∃ s2 ev, Polygon.update { sampleStable with ellipsoid := some ⟨1, (1, 1, 1)⟩ }
        = .ok (s2, ev) ∧ ev.builds.length = 1) ∧
    (∃ s3 ev', Polygon.update { sampleStable with textureRotationAngle := some 2 }
        = .ok (s3, ev') ∧ ev'.builds.length = 1) := by
  exact dirty_check_identity_and_rotation sampleStable ⟨0, (1, 1, 1)⟩
    ⟨1, (1, 1, 1)⟩ 0 (some 2) rfl rfl (by decide) rfl (Or.inl rfl) rfl rfl rfl
    rfl rfl rfl (by decide) (by decide) (by decide)

/-- C8: strong exception safety of the setters — whenever `setPositions` or
`configureFromPolygonHierarchy` throws, the state (stored positions, stored
flattened hierarchy, dirty flag, and everything else) is exactly as before
the call. -/
theorem setters_strong_exception_safety
    (eliminateHoles : List α → List (List α) → List α)
    (s : Polygon α) (p : Option (List α)) (hier : PolygonHierarchy α) :
    ((Polygon.setPositions s p).2.isSome → (Polygon.setPositions s p).1 = s) ∧
    ((Polygon.configureFromPolygonHierarchy eliminateHoles s hier).2.isSome →
      (Polygon.configureFromPolygonHierarchy eliminateHoles s hier).1 = s) := by
  constructor
  · cases p with
    | none => simp [Polygon.setPositions]
    | some l =>
        by_cases h : l.length < 3 <;> simp [Polygon.setPositions, h]
  · cases hfl : flattenQueue eliminateHoles [hier] with
    | error e => simp [Polygon.configureFromPolygonHierarchy, hfl]
    | ok v => simp [Polygon.configureFromPolygonHierarchy, hfl]

/-- C8 witness: a rejected one-point `setPositions` and a rejected
empty-root-ring hierarchy both leave the fresh polygon untouched. -/
theorem setters_strong_exception_safety_witness :
    (Polygon.setPositions samplePolygon (some [0])).1 = samplePolygon ∧
    (Polygon.configureFromPolygonHierarchy sampleEliminateHoles samplePolygon
      (.node [] [])).1 = samplePolygon :=
  ⟨(setters_strong_exception_safety sampleEliminateHoles samplePolygon
      (some [0]) (.node [] [])).1 (by decide),
   (setters_strong_exception_safety sampleEliminateHoles samplePolygon
      (some [0]) (.node [] [])).2 (by
        simp [Polygon.configureFromPolygonHierarchy, flattenQueue])⟩

/-- C9: `destroy` disposes the held renderable handle exactly once (the
disposal list is exactly the held handle, when there is one) and marks the
polygon destroyed; afterwards `isDestroyed` reports true, and every contract
method other than `isDestroyed` — `getPositions`, `setPositions`,
`configureFromPolygonHierarchy`, `update`, `destroy` — fails with the
use-after-destroy error. -/
theorem destroy_disposes_and_guards
    (eliminateHoles : List α → List (List α) → List α)
    (s : Polygon α) (p : Option (List α)) (hier : PolygonHierarchy α) :
    (Polygon.destroy s).2 = s._primitive.toList ∧
    (Polygon.destroy s).1._primitive = none ∧
    (Polygon.destroy s).1.destroyed = true ∧
    Polygon.isDestroyed (Polygon.destroy s).1 = true ∧
    Polygon.getPositionsChecked (Polygon.destroy s).1 = .error .useAfterDestroy ∧
    Polygon.setPositionsChecked (Polygon.destroy s).1 p
      = ((Polygon.destroy s).1, some .useAfterDestroy) ∧
    Polygon.configureFromPolygonHierarchyChecked eliminateHoles
      (Polygon.destroy s).1 hier = ((Polygon.destroy s).1, some .useAfterDestroy) ∧
    Polygon.updateChecked (Polygon.destroy s).1 = .error .useAfterDestroy ∧
    Polygon.destroyChecked (Polygon.destroy s).1 = .error .useAfterDestroy := by
  simp [Polygon.destroy, Polygon.isDestroyed, Polygon.getPositionsChecked,
    Polygon.setPositionsChecked, Polygon.configureFromPolygonHierarchyChecked,
    Polygon.updateChecked, Polygon.destroyChecked]

/-- C10: mutual exclusion of the boundary stores — a successful
`setPositions` leaves no stored hierarchy, a successful
`configureFromPolygonHierarchy` leaves no stored flat positions (so
`getPositions` returns nothing), and in both cases at most one of the two
stores is defined. -/
theorem boundary_stores_mutually_exclusive
    (eliminateHoles : List α → List (List α) → List α)
    (s : Polygon α) (p : Option (List α)) (hier : PolygonHierarchy α) :
    ((Polygon.setPositions s p).2 = none →
      ((Polygon.setPositions s p).1._polygonHierarchy = none ∧
        ¬((Polygon.setPositions s p).1._positions.isSome
            ∧ (Polygon.setPositions s p).1._polygonHierarchy.isSome))) ∧
    ((Polygon.configureFromPolygonHierarchy eliminateHoles s hier).2 = none →
      ((Polygon.configureFromPolygonHierarchy eliminateHoles s hier).1._positions
          = none ∧
        Polygon.getPositions
          (Polygon.configureFromPolygonHierarchy eliminateHoles s hier).1 = none ∧
        ¬((Polygon.configureFromPolygonHierarchy eliminateHoles s hier).1._positions.isSome
            ∧ (Polygon.configureFromPolygonHierarchy eliminateHoles s hier).1._polygonHierarchy.isSome))) := by
  constructor
  · cases p with
    | none => simp [Polygon.setPositions]
    | some l =>
        by_cases h : l.length < 3 <;> simp [Polygon.setPositions, h]
  · cases hfl : flattenQueue eliminateHoles [hier] with
    | error e => simp [Polygon.configureFromPolygonHierarchy, hfl]
    | ok v =>
        simp [Polygon.configureFromPolygonHierarchy, hfl, Polygon.getPositions]

/-- C10 witness: a successful `setPositions` then a successful
`configureFromPolygonHierarchy` on the fresh polygon. -/
theorem boundary_stores_mutually_exclusive_witness :
    (Polygon.setPositions samplePolygon (some [0, 1, 2])).1._polygonHierarchy
      = none ∧
    Polygon.getPositions (Polygon.configureFromPolygonHierarchy
      sampleEliminateHoles samplePolygon (.node [0, 1, 2] [])).1 = none :=
  ⟨((boundary_stores_mutually_exclusive sampleEliminateHoles samplePolygon
      (some [0, 1, 2]) (.node [0, 1, 2] [])).1 (by decide)).1,
   ((boundary_stores_mutually_exclusive sampleEliminateHoles samplePolygon
      (some [0, 1, 2]) (.node [0, 1, 2] [])).2 (by
        simp [Polygon.configureFromPolygonHierarchy, flattenQueue, Except.map])).2.1⟩
